import Mathlib

/-!
Verification of the NBT (Named Binary Tag) codec in `nbt/full.py` against its
specification.

Shallow embedding conventions:
- A Python binary stream is a `List Nat` of byte values (each `< 256`); reading
  consumes a chunk from the front and returns the remainder of the list.
- Python `str` values are `List Nat` of Unicode code points (Python `len` on a
  string counts code points).
- Fallible Python code (functions that may raise) returns `Except PyErr α`.
  Only the class of the raised exception is modelled, since the decoder's
  `try/except` dispatches on exception classes alone.
- `FLOAT`/`DOUBLE` payloads are modelled by their 4/8 wire bytes (the
  big-endian IEEE-754 image that `struct.pack('>f'/'>d')` produces); the
  lossless `unpack`/`pack` round trip on these byte images is modelled as the
  identity, so floating-point arithmetic itself never enters the embedding.
- The recursive decoder and the compound-reading loop take an explicit fuel
  argument and return `PyErr.recursionError` when it runs out, mirroring the
  Python interpreter's own recursion limit; with sufficient fuel the fuel
  value is irrelevant.
-/

/-- Classes of Python exceptions that the code under `nbt/full.py` can raise.
Only the class matters: `NamedTag.read_from_file` catches exceptions by class
(`except (IndexError, EOFError)`), never by message. -/
inductive PyErr where
  | valueError
  | eofError
  | indexError
  | typeError
  | keyError
  | overflowError
  | unicodeDecodeError
  | unicodeEncodeError
  | structError
  | recursionError
  deriving DecidableEq, Repr

/-- Big-endian interpretation of a byte list as an unsigned natural number,
as computed by Python `int.from_bytes(b, byteorder='big')`. -/
def bytesToNat (b : List Nat) : Nat :=
  b.foldl (fun acc x => 256 * acc + x) 0

/-- Python `int.from_bytes(b, byteorder='big', signed=True)`: two's-complement
interpretation (the value is reduced by `2^(8·len)` when the top bit is set). -/
def intFromBytesSigned (b : List Nat) : Int :=
  let n := bytesToNat b
  if 2 * n < 2 ^ (8 * b.length) then (n : Int) else (n : Int) - (2 ^ (8 * b.length) : Nat)

/-- Embeds `nbt_int_from_bytes` from `nbt/full.py`: raises `ValueError` when the
byte count differs from the expected length, otherwise converts big-endian
signed. -/
def nbt_int_from_bytes (b : List Nat) (length : Nat) : Except PyErr Int :=
  if b.length ≠ length then .error .valueError
  else .ok (intFromBytesSigned b)

/-- Big-endian byte representation of a natural number in exactly `len` bytes
(the number is taken modulo `2^(8·len)` by discarding high bytes). -/
def natToBytesBE : Nat → Nat → List Nat
  | 0, _ => []
  | len + 1, n => natToBytesBE len (n / 256) ++ [n % 256]

/-- Embeds `nbt_int_to_bytes` from `nbt/full.py`, i.e. Python
`x.to_bytes(length, byteorder='big', signed=True)`: raises `OverflowError`
when `x` is outside the signed range of `length` bytes, otherwise produces the
big-endian two's-complement bytes. -/
def nbt_int_to_bytes (x : Int) (length : Nat) : Except PyErr (List Nat) :=
  if x < -((2 ^ (8 * length - 1) : Nat) : Int) ∨ ((2 ^ (8 * length - 1) : Nat) : Int) ≤ x then
    .error .overflowError
  else
    .ok (natToBytesBE length (x.emod (2 ^ (8 * length))).toNat)

/-- Embeds `int_sized` from `nbt/full.py`. The source tests
`result.bit_length() / 8.0 > size_bytes`; for an integer `result`,
`bit_length(|result|) > 8·size_bytes` holds exactly when
`|result| ≥ 2^(8·size_bytes)`, which is the form used here. On failure the
source raises `ValueError`. Note the test bounds the MAGNITUDE (bit_length
ignores the sign), not the signed `length`-byte range. -/
def int_sized (x : Int) (size_bytes : Nat) : Except PyErr Int :=
  if (2 ^ (8 * size_bytes) : Nat) ≤ x.natAbs then .error .valueError
  else .ok x

/-- Embeds Python `file.read(n)` on a sequential binary stream: a negative size
reads everything; otherwise up to `n` bytes are returned (fewer at end of
stream, with no error). Returns the chunk and the remaining stream. -/
def pyRead (bs : List Nat) (n : Int) : List Nat × List Nat :=
  if n < 0 then (bs, []) else (bs.take n.toNat, bs.drop n.toNat)

/-- Embeds `file_expect_read` from `nbt/full.py`: read exactly `size` bytes or
raise `EOFError`. -/
def file_expect_read (bs : List Nat) (size : Nat) : Except PyErr (List Nat × List Nat) :=
  let result := bs.take size
  if result.length < size then .error .eofError
  else .ok (result, bs.drop size)

/-- Embeds `expect_read_int` from `nbt/full.py`. -/
def expect_read_int (bs : List Nat) (size : Nat) : Except PyErr (Int × List Nat) := do
  let (chunk, rest) ← file_expect_read bs size
  let v ← nbt_int_from_bytes chunk size
  .ok (v, rest)

/-- The `TAG_NAMES` list from `nbt/constants.py`. -/
def TAG_NAMES : List String :=
  ["TAG_End", "TAG_Byte", "TAG_Short", "TAG_Int", "TAG_Long", "TAG_Float", "TAG_Double",
   "TAG_Byte_array", "TAG_String", "TAG_List", "TAG_Compound", "TAG_Int_array",
   "TAG_Long_array"]

/-- The `ALL_TAG_TYPES` tuple from `nbt/constants.py`. -/
def ALL_TAG_TYPES : List Int := [0, 1, 2, 3, 4, 5, 6, 7, 8, 9, 10, 11, 12]

/-- Python list subscription `l[i]` including CPython's negative-index
semantics: a negative `i` is first shifted by `len(l)`; an index that is still
out of range raises `IndexError`. -/
def pyListGetStr (l : List String) (i : Int) : Except PyErr String :=
  let j : Int := if i < 0 then i + l.length else i
  if h : 0 ≤ j ∧ j.toNat < l.length then .ok (l.get ⟨j.toNat, h.2⟩)
  else .error .indexError

/-- Embeds `tag_kind_to_str` from `nbt/full.py`: `TAG_NAMES[tag_type]` with
`except IndexError: raise ValueError(...)`. Because CPython list indexing
accepts negative indices, only an `IndexError` (index out of the shifted
range) is converted to `ValueError`. -/
def tag_kind_to_str (tag_type : Int) : Except PyErr String :=
  match pyListGetStr TAG_NAMES tag_type with
  | .ok s => .ok s
  | .error _ => .error .valueError

/-- UTF-8 encoding of one code point, as Python `str.encode('utf-8')` does per
character; surrogate code points raise `UnicodeEncodeError`. -/
def utf8EncodeChar (c : Nat) : Except PyErr (List Nat) :=
  if c < 128 then .ok [c]
  else if c < 2048 then .ok [192 + c / 64, 128 + c % 64]
  else if c < 65536 then
    if 55296 ≤ c ∧ c < 57344 then .error .unicodeEncodeError
    else .ok [224 + c / 4096, 128 + c / 64 % 64, 128 + c % 64]
  else .ok [240 + c / 262144, 128 + c / 4096 % 64, 128 + c / 64 % 64, 128 + c % 64]

/-- Python `str.encode('utf-8')` over a whole string (a list of code points). -/
def utf8Encode : List Nat → Except PyErr (List Nat)
  | [] => .ok []
  | c :: cs => do .ok ((← utf8EncodeChar c) ++ (← utf8Encode cs))

/-- Strict UTF-8 decoding of a byte list into code points, as Python
`bytes.decode('utf-8')`: `none` models `UnicodeDecodeError`. Rejects
continuation-byte starts, overlong forms, surrogates, values above `0x10FFFF`,
and truncated multi-byte sequences. -/
def utf8Decode : List Nat → Option (List Nat)
  | [] => some []
  | b :: bs =>
    if b < 128 then
      match utf8Decode bs with
      | some r => some (b :: r)
      | none => none
    else if b < 194 then none
    else if b < 224 then
      match bs with
      | b1 :: bs1 =>
        if 128 ≤ b1 ∧ b1 < 192 then
          match utf8Decode bs1 with
          | some r => some (((b - 192) * 64 + (b1 - 128)) :: r)
          | none => none
        else none
      | [] => none
    else if b < 240 then
      match bs with
      | b1 :: b2 :: bs2 =>
        if (128 ≤ b1 ∧ b1 < 192) ∧ (b = 224 → 160 ≤ b1) ∧ (b = 237 → b1 < 160) ∧
            (128 ≤ b2 ∧ b2 < 192) then
          match utf8Decode bs2 with
          | some r => some (((b - 224) * 4096 + (b1 - 128) * 64 + (b2 - 128)) :: r)
          | none => none
        else none
      | _ => none
    else if b < 245 then
      match bs with
      | b1 :: b2 :: b3 :: bs3 =>
        if (128 ≤ b1 ∧ b1 < 192) ∧ (b = 240 → 144 ≤ b1) ∧ (b = 244 → b1 < 144) ∧
            (128 ≤ b2 ∧ b2 < 192) ∧ (128 ≤ b3 ∧ b3 < 192) then
          match utf8Decode bs3 with
          | some r =>
            some (((b - 240) * 262144 + (b1 - 128) * 4096 + (b2 - 128) * 64 + (b3 - 128)) :: r)
          | none => none
        else none
      | _ => none
    else none

/-- The tag payload data model: one constructor per concrete subclass of
`TagDataABC` in `nbt/full.py`. Integer payloads hold the stored `_val`;
`tagFloat`/`tagDouble` hold the 4/8 wire bytes of the stored float;
`tagByteArray` holds the `bytearray` contents; `tagString` holds the code
points of the stored `str`; `tagList` holds the stored `_item_kind` and the
element list; `tagCompound` holds the insertion-ordered `dict` as an
association list from names (code-point lists) to payloads. -/
inductive TagData where
  | tagEnd
  | tagByte (val : Int)
  | tagShort (val : Int)
  | tagInt (val : Int)
  | tagLong (val : Int)
  | tagFloat (raw : List Nat)
  | tagDouble (raw : List Nat)
  | tagByteArray (val : List Nat)
  | tagString (val : List Nat)
  | tagList (item_kind : Int) (val : List TagData)
  | tagCompound (val : List (List Nat × TagData))
  | tagIntArray (val : List Int)
  | tagLongArray (val : List Int)

/-- The class attribute `kind` of each `TagDataABC` subclass (the constants
`TAG_END` .. `TAG_LONG_ARRAY` from `nbt/constants.py`). -/
def TagData.kind : TagData → Nat
  | .tagEnd => 0
  | .tagByte _ => 1
  | .tagShort _ => 2
  | .tagInt _ => 3
  | .tagLong _ => 4
  | .tagFloat _ => 5
  | .tagDouble _ => 6
  | .tagByteArray _ => 7
  | .tagString _ => 8
  | .tagList _ _ => 9
  | .tagCompound _ => 10
  | .tagIntArray _ => 11
  | .tagLongArray _ => 12

/-- The `.value` property of the integer tag classes (`TagByte`, `TagShort`,
`TagInt`, `TagLong`); the default `0` is never consulted, since every caller
in the embedded code applies it to an integer tag just constructed. -/
def TagData.valInt : TagData → Int
  | .tagByte v => v
  | .tagShort v => v
  | .tagInt v => v
  | .tagLong v => v
  | _ => 0

/-- The `.value` property of `TagString`; the default `[]` is never consulted. -/
def TagData.valStr : TagData → List Nat
  | .tagString s => s
  | _ => []

/-- A `NamedTag` from `nbt/full.py`: a name string paired with a payload tag. -/
structure NamedTag where
  name : List Nat
  payload : TagData

/-- Embeds `TagByte.__init__`: `self._val = int_sized(val, 1)`. -/
def TagByte.init (val : Int) : Except PyErr TagData := do
  .ok (.tagByte (← int_sized val 1))

/-- Embeds `TagShort.__init__`: `self._val = int_sized(val, 2)`. -/
def TagShort.init (val : Int) : Except PyErr TagData := do
  .ok (.tagShort (← int_sized val 2))

/-- Embeds `TagInt.__init__`: `self._val = int_sized(val, 4)`. -/
def TagInt.init (val : Int) : Except PyErr TagData := do
  .ok (.tagInt (← int_sized val 4))

/-- Embeds `TagLong.__init__`: `self._val = int_sized(val, 8)`. -/
def TagLong.init (val : Int) : Except PyErr TagData := do
  .ok (.tagLong (← int_sized val 8))

/-- The element-checking loop of `TagList.__init__`: every element must be a
`TagDataABC` instance (always true in this model, where `TagData` ranges over
exactly those instances) whose `kind` equals the list's `_item_kind`; a
mismatch raises `TypeError` — but only after `tag_kind_to_str(_item_kind)` is
evaluated to build the message, which itself raises `ValueError` when the
declared item kind is not a valid tag kind. -/
def tagListCheckItems (k : Int) : List TagData → Except PyErr (List TagData)
  | [] => .ok []
  | t :: ts =>
    if (t.kind : Int) ≠ k then do
      let _ ← tag_kind_to_str k
      .error .typeError
    else do
      .ok (t :: (← tagListCheckItems k ts))

/-- Embeds `TagList.__init__` (with an `int` item kind): stores `_item_kind`
unchecked, then appends each element after the instance/kind checks. -/
def TagList.init (item_kind : Int) (val : List TagData) : Except PyErr TagData := do
  let checked ← tagListCheckItems item_kind val
  .ok (.tagList item_kind checked)

/-- Embeds `TagList.append`: the only check is `isinstance(item, TagDataABC)`,
which every `TagData` value passes, so any tag is appended regardless of its
kind. The `typeError` branch models calling the method on a non-list payload
and is unreachable from the embedded code. -/
def TagList.append (l : TagData) (item : TagData) : Except PyErr TagData :=
  match l with
  | .tagList k v => .ok (.tagList k (v ++ [item]))
  | _ => .error .typeError

/-- Embeds `TagArrayABC.__setitem__` as inherited by `TagList`:
`self._val[index] = value` after only an `isinstance(value, TagDataABC)`
check; CPython list assignment accepts negative indices and raises
`IndexError` out of range. No element-kind check is performed. -/
def TagList.set_item (l : TagData) (i : Int) (value : TagData) : Except PyErr TagData :=
  match l with
  | .tagList k vs =>
    let j : Int := if i < 0 then i + vs.length else i
    if 0 ≤ j ∧ j.toNat < vs.length then .ok (.tagList k (vs.set j.toNat value))
    else .error .indexError
  | _ => .error .typeError

/-- CPython `dict` assignment `d[n] = p` on an insertion-ordered association
list with pairwise-distinct keys: an existing key keeps its position and gets
the new value; a new key is appended at the end. -/
def dictSet : List (List Nat × TagData) → List Nat → TagData → List (List Nat × TagData)
  | [], n, p => [(n, p)]
  | (m, q) :: rest, n, p =>
    if m = n then (m, p) :: rest else (m, q) :: dictSet rest n p

/-- CPython `dict` lookup `d[n]` (as an `Option`): the value at the unique
matching key, if any. -/
def dictLookup (d : List (List Nat × TagData)) (n : List Nat) : Option TagData :=
  (d.find? (fun e => e.1 = n)).map (fun e => e.2)

/-- The keys of the association list, in insertion order. -/
def dictKeys (d : List (List Nat × TagData)) : List (List Nat) :=
  d.map Prod.fst

/-- Embeds the `list`-of-`NamedTag` branch of `TagCompound.__init__`: iterate
the named tags in order, skip any whose payload is a `TagEnd`, and perform the
dict assignment `self._val[named_tag.name] = named_tag.payload` for the rest. -/
def compoundFromNamedList (tags : List NamedTag) : List (List Nat × TagData) :=
  tags.foldl (fun d t => if t.payload.kind = 0 then d else dictSet d t.name t.payload) []

/-- Embeds `NamedTag.__init__` with the payload argument as passed (`none`
models the default `payload=None`). The source first runs
`if not isinstance(payload, TagDataABC): raise TypeError(...)`, which `None`
fails, so the later `TagEnd() if (payload is None) else payload` default is
dead code. -/
def NamedTag.init (name : List Nat) (payload : Option TagData) : Except PyErr NamedTag :=
  match payload with
  | none => .error .typeError
  | some p => .ok ⟨name, p⟩

/-- Embeds `TagString.__bytes__`: the length tag is `TagShort(self.element_count)`
where `TagString.element_count` is `len(self._val)` — the number of CODE
POINTS of the stored string — followed by the UTF-8 encoding of the string.
The `TagShort` construction itself runs `int_sized(·, 2)`. -/
def TagString.toBytes (s : List Nat) : Except PyErr (List Nat) := do
  let count ← int_sized (s.length : Int) 2
  let countBytes ← nbt_int_to_bytes count 2
  let encoded ← utf8Encode s
  .ok (countBytes ++ encoded)

mutual

/-- Embeds `__bytes__` of every `TagDataABC` subclass from `nbt/full.py`:
`TagEnd` encodes to nothing; the integer tags use `nbt_int_to_bytes` at their
class `size`; `TagFloat`/`TagDouble` emit the stored wire bytes (the
`struct.pack` image, see the module docstring); the array kinds emit a
`TagInt(element_count)` followed by their elements; `TagString` defers to
`TagString.toBytes`; `TagList` emits `TagByte(_item_kind)`,
`TagInt(element_count)` and then each element; `TagCompound` emits each
non-`TagEnd` entry as a named tag and appends the terminating
`bytes(NamedTag('', TagEnd()))`, which is the single byte `0`. -/
def TagData.toBytes : TagData → Except PyErr (List Nat)
  | .tagEnd => .ok []
  | .tagByte v => nbt_int_to_bytes v 1
  | .tagShort v => nbt_int_to_bytes v 2
  | .tagInt v => nbt_int_to_bytes v 4
  | .tagLong v => nbt_int_to_bytes v 8
  | .tagFloat raw => .ok raw
  | .tagDouble raw => .ok raw
  | .tagByteArray arr => do
    let count ← int_sized (arr.length : Int) 4
    let countBytes ← nbt_int_to_bytes count 4
    .ok (countBytes ++ arr)
  | .tagString s => TagString.toBytes s
  | .tagList k elems => do
    let kk ← int_sized k 1
    let kindBytes ← nbt_int_to_bytes kk 1
    let count ← int_sized (elems.length : Int) 4
    let countBytes ← nbt_int_to_bytes count 4
    let elemBytes ← tagListElemsToBytes elems
    .ok (kindBytes ++ countBytes ++ elemBytes)
  | .tagCompound entries => do
    let body ← compoundEntriesToBytes entries
    .ok (body ++ [0])
  | .tagIntArray xs => do
    let count ← int_sized (xs.length : Int) 4
    let countBytes ← nbt_int_to_bytes count 4
    let elemBytes ← intArrayElemsToBytes xs
    .ok (countBytes ++ elemBytes)
  | .tagLongArray xs => do
    let count ← int_sized (xs.length : Int) 4
    let countBytes ← nbt_int_to_bytes count 4
    let elemBytes ← longArrayElemsToBytes xs
    .ok (countBytes ++ elemBytes)

/-- The `for tag in self._val: result.extend(bytes(tag))` loop of
`TagList.__bytes__`. -/
def tagListElemsToBytes : List TagData → Except PyErr (List Nat)
  | [] => .ok []
  | t :: ts => do .ok ((← TagData.toBytes t) ++ (← tagListElemsToBytes ts))

/-- The entry loop of `TagCompound.__bytes__`: entries whose payload is a
`TagEnd` are skipped; every other entry is emitted as
`bytes(NamedTag(name, tag))`. -/
def compoundEntriesToBytes : List (List Nat × TagData) → Except PyErr (List Nat)
  | [] => .ok []
  | (n, p) :: rest =>
    if p.kind = 0 then compoundEntriesToBytes rest
    else do .ok ((← namedTagToBytes n p) ++ (← compoundEntriesToBytes rest))

/-- Embeds `NamedTag.__bytes__`: the payload's kind byte, then — unless the
payload is a `TagEnd`, which is never named — `bytes(TagString(name))`
followed by the payload bytes. -/
def namedTagToBytes (name : List Nat) (p : TagData) : Except PyErr (List Nat) :=
  if p.kind = 0 then .ok [p.kind]
  else do
    let nameBytes ← TagString.toBytes name
    let payloadBytes ← TagData.toBytes p
    .ok (p.kind :: (nameBytes ++ payloadBytes))

/-- The `for x in self._val: result.extend(bytes(TagInt(x)))` loop of
`TagIntArray.__bytes__`. -/
def intArrayElemsToBytes : List Int → Except PyErr (List Nat)
  | [] => .ok []
  | x :: xs => do
    let v ← int_sized x 4
    let b ← nbt_int_to_bytes v 4
    .ok (b ++ (← intArrayElemsToBytes xs))

/-- The `for x in self._val: result.extend(bytes(TagLong(x)))` loop of
`TagLongArray.__bytes__`. -/
def longArrayElemsToBytes : List Int → Except PyErr (List Nat)
  | [] => .ok []
  | x :: xs => do
    let v ← int_sized x 8
    let b ← nbt_int_to_bytes v 8
    .ok (b ++ (← longArrayElemsToBytes xs))

end

/-- Embeds `NamedTag.__bytes__` on a `NamedTag` value. -/
def NamedTag.toBytes (t : NamedTag) : Except PyErr (List Nat) :=
  namedTagToBytes t.name t.payload

mutual

/-- Embeds `write_to_file_stepped` of the `TagDataABC` subclasses, as the list
of bytes the calls write to the file. The base-class default writes
`bytes(self)` in one call, so for every subclass that does not override it the
bytes equal `TagData.toBytes`. Overrides: `TagByteArray` writes
`TagInt(element_count)` then the raw bytes; `TagList` writes
`TagByte(_item_kind)`, then `TagShort(element_count)` — a 2-byte count,
unlike the 4-byte `TagInt` count in `TagList.__bytes__` — then each element
stepped; `TagCompound` writes each non-`TagEnd` entry as a stepped named tag
and then the terminating `NamedTag('', TagEnd())`. -/
def TagData.write_to_file_stepped : TagData → Except PyErr (List Nat)
  | .tagByteArray arr => do
    let count ← int_sized (arr.length : Int) 4
    let countBytes ← nbt_int_to_bytes count 4
    .ok (countBytes ++ arr)
  | .tagList k elems => do
    let kk ← int_sized k 1
    let kindBytes ← nbt_int_to_bytes kk 1
    let count ← int_sized (elems.length : Int) 2
    let countBytes ← nbt_int_to_bytes count 2
    let elemBytes ← tagListElemsStepped elems
    .ok (kindBytes ++ countBytes ++ elemBytes)
  | .tagCompound entries => do
    let body ← compoundEntriesStepped entries
    .ok (body ++ [0])
  | t => TagData.toBytes t

/-- The `for tag in self._val: tag.write_to_file_stepped(file)` loop of
`TagList.write_to_file_stepped`. -/
def tagListElemsStepped : List TagData → Except PyErr (List Nat)
  | [] => .ok []
  | t :: ts => do .ok ((← TagData.write_to_file_stepped t) ++ (← tagListElemsStepped ts))

/-- The entry loop of `TagCompound.write_to_file_stepped`: skip `TagEnd`
payloads, then `NamedTag(name, tag).write_to_file_stepped(file)`. -/
def compoundEntriesStepped : List (List Nat × TagData) → Except PyErr (List Nat)
  | [] => .ok []
  | (n, p) :: rest =>
    if p.kind = 0 then compoundEntriesStepped rest
    else do .ok ((← namedTagStepped n p) ++ (← compoundEntriesStepped rest))

/-- Embeds `NamedTag.write_to_file_stepped`: `self.kind_tag` (a
`TagByte(kind)`) is written with the default stepped write, i.e. its
`__bytes__`; then, unless the payload is a `TagEnd`, the name tag's bytes and
the payload's stepped bytes follow. -/
def namedTagStepped (name : List Nat) (p : TagData) : Except PyErr (List Nat) := do
  let kk ← int_sized (p.kind : Int) 1
  let kindBytes ← nbt_int_to_bytes kk 1
  if p.kind = 0 then .ok kindBytes
  else do
    let nameBytes ← TagString.toBytes name
    let payloadBytes ← TagData.write_to_file_stepped p
    .ok (kindBytes ++ nameBytes ++ payloadBytes)

end

/-- Embeds `TagEnd.read_from_file`: consumes nothing. -/
def TagEnd.read_from_file (bs : List Nat) : Except PyErr (TagData × List Nat) :=
  .ok (.tagEnd, bs)

/-- Embeds `TagByte.read_from_file`:
`TagByte(nbt_int_from_bytes(file.read(1), 1))`.  Note that it uses a plain
`file.read`, so at end of stream `nbt_int_from_bytes` receives too few bytes
and raises `ValueError` (not `EOFError`). -/
def TagByte.read_from_file (bs : List Nat) : Except PyErr (TagData × List Nat) := do
  let (chunk, rest) := pyRead bs 1
  let v ← nbt_int_from_bytes chunk 1
  let t ← TagByte.init v
  .ok (t, rest)

/-- Embeds `TagShort.read_from_file`: `TagShort(expect_read_int(file, 2))`. -/
def TagShort.read_from_file (bs : List Nat) : Except PyErr (TagData × List Nat) := do
  let (v, rest) ← expect_read_int bs 2
  let t ← TagShort.init v
  .ok (t, rest)

/-- Embeds `TagInt.read_from_file`: `TagInt(expect_read_int(file, 4))`. -/
def TagInt.read_from_file (bs : List Nat) : Except PyErr (TagData × List Nat) := do
  let (v, rest) ← expect_read_int bs 4
  let t ← TagInt.init v
  .ok (t, rest)

/-- Embeds `TagLong.read_from_file`: `TagLong(expect_read_int(file, 8))`. -/
def TagLong.read_from_file (bs : List Nat) : Except PyErr (TagData × List Nat) := do
  let (v, rest) ← expect_read_int bs 8
  let t ← TagLong.init v
  .ok (t, rest)

/-- Embeds `TagFloat.read_from_file`: `struct.unpack('>f', file.read(4))`,
which raises `struct.error` when fewer than 4 bytes remain; the decoded wire
bytes are kept as the payload (see the module docstring). -/
def TagFloat.read_from_file (bs : List Nat) : Except PyErr (TagData × List Nat) :=
  let chunk := bs.take 4
  if chunk.length ≠ 4 then .error .structError
  else .ok (.tagFloat chunk, bs.drop 4)

/-- Embeds `TagDouble.read_from_file`: `struct.unpack('>d', file.read(8))`. -/
def TagDouble.read_from_file (bs : List Nat) : Except PyErr (TagData × List Nat) :=
  let chunk := bs.take 8
  if chunk.length ≠ 8 then .error .structError
  else .ok (.tagDouble chunk, bs.drop 8)

/-- Embeds `TagByteArray.read_from_file`: read a `TagInt` count, then
`file.read(count)` with no shortfall check (a short stream yields a silently
truncated array; a negative count reads the whole remaining stream). -/
def TagByteArray.read_from_file (bs : List Nat) : Except PyErr (TagData × List Nat) := do
  let (cTag, bs1) ← TagInt.read_from_file bs
  let (chunk, bs2) := pyRead bs1 cTag.valInt
  .ok (.tagByteArray chunk, bs2)

/-- Embeds `TagString.read_from_file`: read a `TagShort` count; a zero count
yields the empty string without reading; otherwise `file.read(count)` — again
with NO check that `count` bytes were actually available — followed by strict
UTF-8 decoding of whatever chunk was returned. -/
def TagString.read_from_file (bs : List Nat) : Except PyErr (TagData × List Nat) := do
  let (cTag, bs1) ← TagShort.read_from_file bs
  let count := cTag.valInt
  if count = 0 then .ok (.tagString [], bs1)
  else
    let (chunk, bs2) := pyRead bs1 count
    match utf8Decode chunk with
    | some s => .ok (.tagString s, bs2)
    | none => .error .unicodeDecodeError

/-- Embeds the `int_sized(x, size)` generator comprehension shared by
`TagIntArray.__init__` (size 4) and `TagLongArray.__init__` (size 8). -/
def arrayInitItems (size : Nat) : List Int → Except PyErr (List Int)
  | [] => .ok []
  | x :: xs => do .ok ((← int_sized x size) :: (← arrayInitItems size xs))

/-- Embeds `TagIntArray.__init__`. -/
def TagIntArray.init (val : List Int) : Except PyErr TagData := do
  .ok (.tagIntArray (← arrayInitItems 4 val))

/-- Embeds `TagLongArray.__init__`. -/
def TagLongArray.init (val : List Int) : Except PyErr TagData := do
  .ok (.tagLongArray (← arrayInitItems 8 val))

/-- The `[TagInt.read_from_file(file)._val for _ in range(count)]`
comprehension of `TagIntArray.read_from_file` (`range` of a negative count is
empty, hence the `Nat` iteration count). -/
def readIntValsLoop : Nat → List Nat → Except PyErr (List Int × List Nat)
  | 0, bs => .ok ([], bs)
  | n + 1, bs => do
    let (t, bs1) ← TagInt.read_from_file bs
    let (ts, bs2) ← readIntValsLoop n bs1
    .ok (t.valInt :: ts, bs2)

/-- The `[TagLong.read_from_file(file)._val for _ in range(count)]`
comprehension of `TagLongArray.read_from_file`. -/
def readLongValsLoop : Nat → List Nat → Except PyErr (List Int × List Nat)
  | 0, bs => .ok ([], bs)
  | n + 1, bs => do
    let (t, bs1) ← TagLong.read_from_file bs
    let (ts, bs2) ← readLongValsLoop n bs1
    .ok (t.valInt :: ts, bs2)

/-- Embeds `TagIntArray.read_from_file`. -/
def TagIntArray.read_from_file (bs : List Nat) : Except PyErr (TagData × List Nat) := do
  let (cTag, bs1) ← TagInt.read_from_file bs
  let (vals, bs2) ← readIntValsLoop cTag.valInt.toNat bs1
  let t ← TagIntArray.init vals
  .ok (t, bs2)

/-- Embeds `TagLongArray.read_from_file`. -/
def TagLongArray.read_from_file (bs : List Nat) : Except PyErr (TagData × List Nat) := do
  let (cTag, bs1) ← TagInt.read_from_file bs
  let (vals, bs2) ← readLongValsLoop cTag.valInt.toNat bs1
  let t ← TagLongArray.init vals
  .ok (t, bs2)

mutual

/-- Embeds `NamedTag.read_from_file`. The kind byte is read through
`TagByte.read_from_file` inside `try: ... except (IndexError, EOFError):`, so
ONLY those two exception classes are converted into the synthesized
`NamedTag('', TagEnd())`; at end of stream `TagByte.read_from_file` actually
raises `ValueError`, which propagates. A kind value outside `ALL_TAG_TYPES`
raises `ValueError`; kind `TAG_END` yields `NamedTag('', TagEnd())` without
reading a name or payload; any other kind reads a string name and then the
dispatched payload. -/
def NamedTag.read_from_file : Nat → List Nat → Except PyErr (NamedTag × List Nat)
  | 0, _ => .error .recursionError
  | fuel + 1, bs =>
    match TagByte.read_from_file bs with
    | .error .indexError => .ok (⟨[], .tagEnd⟩, bs)
    | .error .eofError => .ok (⟨[], .tagEnd⟩, bs)
    | .error e => .error e
    | .ok (kindTag, bs1) =>
      if kindTag.valInt ∈ ALL_TAG_TYPES then
        if kindTag.valInt = 0 then .ok (⟨[], .tagEnd⟩, bs1)
        else do
          let (nameTag, bs2) ← TagString.read_from_file bs1
          let (payload, bs3) ← TagDataABC.dispatch_read_from_file fuel kindTag.valInt bs2
          .ok (⟨nameTag.valStr, payload⟩, bs3)
      else .error .valueError

/-- Embeds `TagDataABC.dispatch_read_from_file`: `kind_to_class_type` (which
raises `ValueError` for an invalid kind) followed by the chosen class's
`read_from_file`. -/
def TagDataABC.dispatch_read_from_file : Nat → Int → List Nat → Except PyErr (TagData × List Nat)
  | 0, _, _ => .error .recursionError
  | fuel + 1, tag_kind, bs =>
    if tag_kind = 0 then TagEnd.read_from_file bs
    else if tag_kind = 1 then TagByte.read_from_file bs
    else if tag_kind = 2 then TagShort.read_from_file bs
    else if tag_kind = 3 then TagInt.read_from_file bs
    else if tag_kind = 4 then TagLong.read_from_file bs
    else if tag_kind = 5 then TagFloat.read_from_file bs
    else if tag_kind = 6 then TagDouble.read_from_file bs
    else if tag_kind = 7 then TagByteArray.read_from_file bs
    else if tag_kind = 8 then TagString.read_from_file bs
    else if tag_kind = 9 then TagList.read_from_file fuel bs
    else if tag_kind = 10 then TagCompound.read_from_file fuel bs
    else if tag_kind = 11 then TagIntArray.read_from_file bs
    else if tag_kind = 12 then TagLongArray.read_from_file bs
    else .error .valueError

/-- Embeds `TagList.read_from_file`: read the element-kind byte, resolve it
with `kind_to_class_type` (`ValueError` when invalid) BEFORE reading the
`TagInt` element count, then read `count` payloads of the element kind and
pass them through the `TagList` constructor. -/
def TagList.read_from_file : Nat → List Nat → Except PyErr (TagData × List Nat)
  | 0, _ => .error .recursionError
  | fuel + 1, bs => do
    let (kTag, bs1) ← TagByte.read_from_file bs
    if kTag.valInt ∈ ALL_TAG_TYPES then do
      let (cTag, bs2) ← TagInt.read_from_file bs1
      let (elems, bs3) ← readListElems fuel kTag.valInt cTag.valInt.toNat bs2
      let t ← TagList.init kTag.valInt elems
      .ok (t, bs3)
    else .error .valueError

/-- The `[item_class.read_from_file(file) for _ in range(item_count)]`
comprehension of `TagList.read_from_file` (`range` of a negative count is
empty). Reading an element of kind `k` through its class `read_from_file` is
exactly the `k` branch of the dispatch. -/
def readListElems : Nat → Int → Nat → List Nat → Except PyErr (List TagData × List Nat)
  | 0, _, _, _ => .error .recursionError
  | _, _, 0, bs => .ok ([], bs)
  | fuel + 1, k, n + 1, bs => do
    let (t, bs1) ← TagDataABC.dispatch_read_from_file fuel k bs
    let (ts, bs2) ← readListElems fuel k n bs1
    .ok (t :: ts, bs2)

/-- The `while` loop of `TagCompound.read_from_file`: read named tags,
collecting every one of them (including the final `TagEnd`-payload tag), until
a tag of kind `TAG_END` arrives. -/
def readTagsUntilEnd : Nat → List Nat → Except PyErr (List NamedTag × List Nat)
  | 0, _ => .error .recursionError
  | fuel + 1, bs => do
    let (t, bs1) ← NamedTag.read_from_file fuel bs
    if t.payload.kind = 0 then .ok ([t], bs1)
    else do
      let (ts, bs2) ← readTagsUntilEnd fuel bs1
      .ok (t :: ts, bs2)

/-- Embeds `TagCompound.read_from_file`: collect named tags until a `TagEnd`,
then run them through the `list` branch of the `TagCompound` constructor
(insertion-ordered dict assignment, skipping `TagEnd` payloads). -/
def TagCompound.read_from_file : Nat → List Nat → Except PyErr (TagData × List Nat)
  | 0, _ => .error .recursionError
  | fuel + 1, bs => do
    let (tags, bs1) ← readTagsUntilEnd fuel bs
    .ok (.tagCompound (compoundFromNamedList tags), bs1)

end

/-- Declarative view of a compound wire body: the names of its non-`TagEnd`
named tags, in stream order (duplicates included). -/
def wireNames : List NamedTag → List (List Nat)
  | [] => []
  | t :: ts => if t.payload.kind = 0 then wireNames ts else t.name :: wireNames ts

/-- Removes every occurrence of one name from a name list. -/
def removeName (n : List Nat) : List (List Nat) → List (List Nat)
  | [] => []
  | m :: rest => if m = n then removeName n rest else m :: removeName n rest

/-- Removes every occurrence of any of the names in `ks` from a name list. -/
def removeNames (ks : List (List Nat)) : List (List Nat) → List (List Nat)
  | [] => []
  | m :: rest => if m ∈ ks then removeNames ks rest else m :: removeNames ks rest

/-- The distinct names of a name list, each at the position of its first
occurrence. -/
def firstOccs : List (List Nat) → List (List Nat)
  | [] => []
  | n :: rest => n :: removeName n (firstOccs rest)

/-- The payload of the LAST non-`TagEnd` named tag in the list carrying the
given name, if any (the declarative "last write wins" value). -/
def lastAssoc : List NamedTag → List Nat → Option TagData
  | [], _ => none
  | t :: ts, n =>
    match lastAssoc ts n with
    | some p => some p
    | none => if t.payload.kind ≠ 0 ∧ t.name = n then some t.payload else none

/-- Left-biased choice on options (the first one when present). -/
def optOr (a b : Option TagData) : Option TagData :=
  match a with
  | some x => some x
  | none => b

/-- The code points of the Python string `"café"` (the fourth code point,
`é`, is U+00E9 = 233, whose UTF-8 encoding takes two bytes). -/
def cafeStr : List Nat := [99, 97, 102, 233]

/-- The bytes produced by `bytes(NamedTag("", TagString("café")))`: kind byte
8, empty name (`00 00`), then the string payload with its length word `00 04`
(four CHARACTERS) followed by the five UTF-8 bytes of `"café"`. -/
def cafeWire : List Nat := [8, 0, 0, 0, 4, 99, 97, 102, 195, 169]

/-- A compound payload wire body holding three named entries with a duplicated
name — `("a", Byte 1)`, `("a", Byte 2)`, `("b", Byte 3)` — then the
terminating END byte (`"a"` is code point 97 and `"b"` is 98). -/
def dupNamesWire : List Nat := [1, 0, 1, 97, 1, 1, 0, 1, 97, 2, 1, 0, 1, 98, 3, 0]

/-- The entry list the decoder is expected to produce from `dupNamesWire`:
one entry per distinct name, at the position of the name's first occurrence,
holding the payload of its last occurrence. -/
def dupNamesEntries : List (List Nat × TagData) := [([97], .tagByte 2), ([98], .tagByte 3)]

theorem removeNames_nil (l : List (List Nat)) : removeNames [] l = l := by
  induction l with
  | nil => rfl
  | cons m rest ih => simp [removeNames, ih]

theorem removeNames_removeName_of_mem (ks : List (List Nat)) (n : List Nat) (hn : n ∈ ks)
    (l : List (List Nat)) : removeNames ks (removeName n l) = removeNames ks l := by
  induction l with
  | nil => rfl
  | cons m rest ih =>
    by_cases hm : m = n
    · subst hm; simp [removeName, removeNames, hn, ih]
    · by_cases hks : m ∈ ks <;> simp [removeName, removeNames, hm, hks, ih]

theorem removeNames_append_singleton (ks : List (List Nat)) (n : List Nat)
    (l : List (List Nat)) : removeNames (ks ++ [n]) l = removeNames ks (removeName n l) := by
  induction l with
  | nil => rfl
  | cons m rest ih =>
    by_cases hm : m = n
    · subst hm; simp [removeName, removeNames, ih]
    · by_cases hks : m ∈ ks <;> simp [removeName, removeNames, hm, hks, ih]

theorem dictLookup_dictSet (d : List (List Nat × TagData)) (n : List Nat) (p : TagData)
    (m : List Nat) :
    dictLookup (dictSet d n p) m = if m = n then some p else dictLookup d m := by
  induction d with
  | nil =>
    by_cases h : m = n
    · subst h; simp [dictSet, dictLookup]
    · simp [dictSet, dictLookup, h, Ne.symm h]
  | cons e rest ih =>
    obtain ⟨k, q⟩ := e
    by_cases hkn : k = n
    · subst hkn
      by_cases hm : m = k
      · subst hm; simp [dictSet, dictLookup]
      · simp [dictSet, dictLookup, hm, Ne.symm hm]
    · by_cases hm : k = m <;> by_cases hmn : m = n <;>
        simp_all [dictSet, dictLookup]

theorem dictKeys_dictSet (d : List (List Nat × TagData)) (n : List Nat) (p : TagData) :
    dictKeys (dictSet d n p) = if n ∈ dictKeys d then dictKeys d else dictKeys d ++ [n] := by
  induction d with
  | nil => simp [dictSet, dictKeys]
  | cons e rest ih =>
    obtain ⟨k, q⟩ := e
    by_cases hkn : k = n
    · subst hkn; simp [dictSet, dictKeys]
    · simp [dictSet, dictKeys, hkn, Ne.symm hkn] at ih ⊢
      rw [ih]
      by_cases hmem : n ∈ List.map Prod.fst rest <;> simp [hmem, Ne.symm hkn]

theorem compound_fold_keys (tags : List NamedTag) :
    ∀ d : List (List Nat × TagData),
      dictKeys (tags.foldl
          (fun d t => if t.payload.kind = 0 then d else dictSet d t.name t.payload) d) =
        dictKeys d ++ removeNames (dictKeys d) (firstOccs (wireNames tags)) := by
  induction tags with
  | nil => intro d; simp [wireNames, firstOccs, removeNames]
  | cons t ts ih =>
    intro d
    by_cases h0 : t.payload.kind = 0
    · simp [h0, wireNames, ih]
    · simp only [List.foldl_cons, if_neg h0]
      rw [ih, dictKeys_dictSet, wireNames, if_neg h0, firstOccs]
      by_cases hmem : t.name ∈ dictKeys d
      · rw [if_pos hmem]
        simp [removeNames, hmem, removeNames_removeName_of_mem _ _ hmem]
      · rw [if_neg hmem]
        simp [removeNames, hmem, removeNames_append_singleton]

theorem compound_fold_lookup (tags : List NamedTag) :
    ∀ (d : List (List Nat × TagData)) (n : List Nat),
      dictLookup (tags.foldl
          (fun d t => if t.payload.kind = 0 then d else dictSet d t.name t.payload) d) n =
        optOr (lastAssoc tags n) (dictLookup d n) := by
  induction tags with
  | nil => intro d n; simp [lastAssoc, optOr]
  | cons t ts ih =>
    intro d n
    by_cases h0 : t.payload.kind = 0
    · simp only [List.foldl_cons, if_pos h0, ih, lastAssoc]
      cases lastAssoc ts n with
      | none => simp [optOr, h0]
      | some p => simp [optOr]
    · simp only [List.foldl_cons, if_neg h0, ih, lastAssoc]
      cases lastAssoc ts n with
      | none =>
        by_cases hn : t.name = n
        · simp [optOr, dictLookup_dictSet, h0, hn, Ne.symm]
        · simp [optOr, dictLookup_dictSet, h0, hn, Ne.symm hn]
      | some p => simp [optOr]

theorem compoundFromNamedList_keys (tags : List NamedTag) :
    dictKeys (compoundFromNamedList tags) = firstOccs (wireNames tags) := by
  have h := compound_fold_keys tags []
  simpa [compoundFromNamedList, dictKeys, removeNames_nil] using h

theorem compoundFromNamedList_lookup (tags : List NamedTag) (n : List Nat) :
    dictLookup (compoundFromNamedList tags) n = lastAssoc tags n := by
  have h := compound_fold_lookup tags [] n
  cases ha : lastAssoc tags n <;>
    simpa [compoundFromNamedList, dictLookup, optOr, ha] using h

theorem removeName_sublist (n : List Nat) (l : List (List Nat)) :
    List.Sublist (removeName n l) l := by
  induction l with
  | nil => simp [removeName]
  | cons m rest ih =>
    by_cases hm : m = n
    · simp only [removeName, if_pos hm]
      exact ih.trans (List.sublist_cons_self m rest)
    · simp only [removeName, if_neg hm]
      exact List.Sublist.cons₂ m ih

theorem not_mem_removeName (n : List Nat) (l : List (List Nat)) : n ∉ removeName n l := by
  induction l with
  | nil => simp [removeName]
  | cons m rest ih =>
    by_cases hm : m = n
    · simpa [removeName, hm] using ih
    · simp [removeName, hm, ih, Ne.symm hm]

theorem firstOccs_nodup (l : List (List Nat)) : (firstOccs l).Nodup := by
  induction l with
  | nil => simp [firstOccs]
  | cons n rest ih =>
    simp only [firstOccs, List.nodup_cons]
    exact ⟨not_mem_removeName n (firstOccs rest), (removeName_sublist n (firstOccs rest)).nodup ih⟩

theorem pyBindOk {α β : Type} (x : α) (f : α → Except PyErr β) :
    (Except.ok x >>= f) = f x := rfl

theorem pyBindError {α β : Type} (er : PyErr) (f : α → Except PyErr β) :
    ((Except.error er : Except PyErr α) >>= f) = Except.error er := rfl

theorem tagListCheckItems_ok (k : Int) (elems : List TagData) :
    ∀ res : List TagData, tagListCheckItems k elems = .ok res →
      res = elems ∧ ∀ t ∈ elems, (TagData.kind t : Int) = k := by
  induction elems with
  | nil =>
    intro res h
    simp only [tagListCheckItems, Except.ok.injEq] at h
    simp [← h]
  | cons t ts ih =>
    intro res h
    by_cases hk : (TagData.kind t : Int) = k
    · cases e : tagListCheckItems k ts with
      | error err =>
        simp only [tagListCheckItems, if_neg (not_not_intro hk), e, pyBindError] at h
        exact Except.noConfusion h
      | ok res2 =>
        simp only [tagListCheckItems, if_neg (not_not_intro hk), e, pyBindOk,
          Except.ok.injEq] at h
        obtain ⟨hres2, hall⟩ := ih res2 e
        subst hres2
        constructor
        · exact h.symm
        · intro t2 ht2
          rcases List.mem_cons.mp ht2 with h1 | h2
          · rw [h1]; exact hk
          · exact hall t2 h2
    · exfalso
      cases e : tag_kind_to_str k with
      | error err =>
        simp only [tagListCheckItems, if_pos hk, e, pyBindError] at h
        exact Except.noConfusion h
      | ok s =>
        simp only [tagListCheckItems, if_pos hk, e, pyBindOk] at h
        exact Except.noConfusion h

/-- C1: the claim states that decoding the bytes produced by encoding any
syntactically valid named-tag tree yields the tree back.  The code violates
this: `bytes(NamedTag("", TagString("café")))` writes the length word `4`
(the CHARACTER count that `TagString.element_count` returns) in front of the
5 UTF-8 payload bytes, so the decoder — which treats the length word as a
BYTE count — reads back only 4 of the 5 bytes and fails UTF-8 decoding with
a `UnicodeDecodeError` instead of returning the tree. -/
theorem c1_roundtrip_fails_on_cafe :
    NamedTag.toBytes ⟨[], .tagString cafeStr⟩ = .ok cafeWire ∧
      NamedTag.read_from_file 3 cafeWire = .error .unicodeDecodeError := by
  constructor
  · simp only [NamedTag.toBytes, namedTagToBytes, TagData.toBytes]; rfl
  · rfl

/-- C2: the claim states that the 16-bit length word written in front of a
STRING payload equals the number of UTF-8 bytes, 5 for `"café"`.  The code
instead writes `len(self._val)` — the number of characters — so the encoding
of `"café"` carries the length word `00 04` even though 5 UTF-8 bytes follow. -/
theorem c2_string_length_word_counts_chars :
    TagString.toBytes cafeStr = .ok ([0, 4] ++ [99, 97, 102, 195, 169]) ∧
      utf8Encode cafeStr = .ok [99, 97, 102, 195, 169] ∧
      intFromBytesSigned [0, 4] = 4 := ⟨rfl, rfl, rfl⟩

/-- C3: the claim states that `TagByte(127)`/`TagByte(-128)` succeed while
`TagByte(128)`/`TagByte(-129)` raise an integer-overflow error.  In the code
`int_sized` only bounds the MAGNITUDE at `2^(8·size)`, so `TagByte(128)`,
`TagByte(-129)` and even `TagByte(255)` are constructed without error;
rejection starts at magnitude 256, and the signed overflow only surfaces
later, when `nbt_int_to_bytes` serializes the value. -/
theorem c3_byte_construction_accepts_128 :
    TagByte.init 127 = .ok (.tagByte 127) ∧ TagByte.init (-128) = .ok (.tagByte (-128)) ∧
      TagByte.init 128 = .ok (.tagByte 128) ∧ TagByte.init (-129) = .ok (.tagByte (-129)) ∧
      TagByte.init 255 = .ok (.tagByte 255) ∧ TagByte.init 256 = .error .valueError ∧
      nbt_int_to_bytes 128 1 = .error .overflowError :=
  ⟨rfl, rfl, rfl, rfl, rfl, rfl, rfl⟩

/-- C4: the claim states that a stream exhausted exactly where a kind byte
would be read makes the decoder synthesize an END tag.  In the code
`TagByte.read_from_file` uses a plain `file.read(1)`, so at end of stream
`nbt_int_from_bytes` raises `ValueError` — which the surrounding
`except (IndexError, EOFError)` does NOT catch — and decoding an empty
stream therefore fails instead of producing the END tag its own docstring
promises. -/
theorem c4_eof_at_kind_byte_raises :
    NamedTag.read_from_file 1 [] = .error .valueError ∧
      TagByte.read_from_file [] = .error .valueError := ⟨rfl, rfl⟩

/-- C5: the claim states that a STRING whose declared length exceeds the
remaining bytes fails with an unexpected-end-of-input error.  The code reads
the payload with a plain `file.read(count)` and never compares the returned
chunk with `count`: on the stream `00 05 'h' 'i'` (declared length 5, two
bytes available) it returns the silently truncated string `"hi"`. -/
theorem c5_truncated_string_not_detected :
    TagString.read_from_file [0, 5, 104, 105] = .ok (.tagString [104, 105], []) := rfl

/-- C6: the claim states that the buffered (`bytes(tag)`) and incremental
(`write_to_file_stepped`) encodings are byte-identical for every valid tree.
For a `TagList` they are not: `TagList.__bytes__` writes the element count as
a 4-byte `TagInt` while `TagList.write_to_file_stepped` writes it as a 2-byte
`TagShort`, so already the empty BYTE-kind list encodes to 5 bytes buffered
but 3 bytes stepped. -/
theorem c6_list_stepped_count_width_differs :
    TagData.toBytes (.tagList 1 []) = .ok [1, 0, 0, 0, 0] ∧
      TagData.write_to_file_stepped (.tagList 1 []) = .ok [1, 0, 0] := by
  constructor
  · simp only [TagData.toBytes, tagListElemsToBytes]; rfl
  · simp only [TagData.write_to_file_stepped, tagListElemsStepped]; rfl

/-- C7 counterexample: the claim states that list homogeneity is an invariant
preserved by ALL operations including `append`.  `TagList.append` only checks
`isinstance(item, TagDataABC)`, so appending a STRING tag to a list declared
with element kind INT succeeds and produces a list whose single element's
kind differs from the declared kind. -/
theorem c7_append_skips_kind_check :
    TagList.append (.tagList 3 []) (.tagString [104, 105]) =
        .ok (.tagList 3 [.tagString [104, 105]]) ∧
      (TagData.kind (.tagString [104, 105]) : Int) ≠ 3 := ⟨rfl, by decide⟩

/-- C7 (amended): a LIST's declared element kind is fixed at creation and the
CONSTRUCTOR checks every element against it — a successful construction
returns exactly the given homogeneous elements, and a LIST declared as
INT-element whose element at index 0 is a STRING fails with `TypeError` —
while `append` and index assignment perform no kind check at all. -/
theorem c7_construction_enforces_homogeneity :
    (∀ (k : Int) (elems : List TagData) (l : TagData), TagList.init k elems = .ok l →
      l = .tagList k elems ∧ ∀ t ∈ elems, (TagData.kind t : Int) = k) ∧
    ∀ (s : List Nat) (rest : List TagData),
      TagList.init 3 (.tagString s :: rest) = .error .typeError := by
  constructor
  · intro k elems l h
    cases e : tagListCheckItems k elems with
    | error err =>
      simp only [TagList.init, e, pyBindError] at h
      exact Except.noConfusion h
    | ok res =>
      obtain ⟨hres, hall⟩ := tagListCheckItems_ok k elems res e
      subst hres
      simp only [TagList.init, e, pyBindOk, Except.ok.injEq] at h
      exact ⟨h.symm, hall⟩
  · intro s rest
    rfl

/-- C7 witness: the amended theorem applied to the concrete instances
`TagList(TAG_BYTE, [TagByte(5)])` (successful homogeneous construction) and
`TagList(TAG_INT, [TagString("")])` (rejected at index 0). -/
theorem c7_witness :
    ((.tagList 1 [.tagByte 5] : TagData) = .tagList 1 [.tagByte 5] ∧
      ∀ t ∈ [TagData.tagByte 5], (TagData.kind t : Int) = 1) ∧
      TagList.init 3 [.tagString []] = .error .typeError :=
  ⟨c7_construction_enforces_homogeneity.1 1 [.tagByte 5] (.tagList 1 [.tagByte 5]) rfl,
    c7_construction_enforces_homogeneity.2 [] []⟩

/-- C8: the claim states that a default-constructed `NamedTag` (no payload
argument) succeeds as the canonical empty-name END marker.  The constructor
first runs `if not isinstance(payload, TagDataABC): raise TypeError`, which
the default `payload=None` fails, so `NamedTag()` raises `TypeError`; the
`TagEnd() if payload is None else payload` default is dead code. -/
theorem c8_default_payload_rejected :
    NamedTag.init [] none = .error .typeError := rfl

/-- C9: the claim states that `tag_kind_to_str` fails for EVERY integer
outside `[0, 12]`, including negative ones.  Because `TAG_NAMES[k]` follows
CPython negative-index semantics, `k ∈ [-13, -1]` silently aliases the end of
the list: `tag_kind_to_str(-1)` returns `'TAG_Long_array'` and
`tag_kind_to_str(-13)` returns `'TAG_End'`; only `k ≥ 13` and `k ≤ -14`
raise `ValueError`. -/
theorem c9_negative_kind_not_rejected :
    tag_kind_to_str (-1) = .ok "TAG_Long_array" ∧
      tag_kind_to_str (-13) = .ok "TAG_End" ∧
      tag_kind_to_str 13 = .error .valueError ∧
      tag_kind_to_str (-14) = .error .valueError := ⟨rfl, rfl, rfl, rfl⟩

/-- C10: decoding a COMPOUND whose wire form contains several entries with
the same name follows CPython dict-assignment semantics: whenever the
compound reader succeeds, its entry list is the dict fold of the named tags
read from the wire, its keys are the distinct non-END names each at the
position of its FIRST occurrence (hence exactly one entry per distinct
name), and the value stored under each name is the payload of that name's
LAST occurrence in stream order. -/
theorem c10_compound_decode_last_write_wins (fuel : Nat) (bs rest : List Nat)
    (entries : List (List Nat × TagData))
    (h : TagCompound.read_from_file (fuel + 1) bs = .ok (.tagCompound entries, rest)) :
    ∃ tags : List NamedTag, readTagsUntilEnd fuel bs = .ok (tags, rest) ∧
      entries = compoundFromNamedList tags ∧
      dictKeys entries = firstOccs (wireNames tags) ∧
      (dictKeys entries).Nodup ∧
      ∀ n : List Nat, dictLookup entries n = lastAssoc tags n := by
  cases e : readTagsUntilEnd fuel bs with
  | error err =>
    simp only [TagCompound.read_from_file, e, pyBindError] at h
    exact Except.noConfusion h
  | ok pr =>
    obtain ⟨tags, bs1⟩ := pr
    simp only [TagCompound.read_from_file, e, pyBindOk, Except.ok.injEq, Prod.mk.injEq,
      TagData.tagCompound.injEq] at h
    obtain ⟨h1, h2⟩ := h
    subst h2
    refine ⟨tags, ?_, h1.symm, ?_, ?_, ?_⟩
    · rfl
    · rw [← h1]
      exact compoundFromNamedList_keys tags
    · rw [← h1, compoundFromNamedList_keys tags]
      exact firstOccs_nodup (wireNames tags)
    · intro n
      rw [← h1]
      exact compoundFromNamedList_lookup tags n

/-- C10 witness: the theorem applied to a concrete compound body whose wire
form holds `("a", Byte 1)`, `("a", Byte 2)`, `("b", Byte 3)` before the END
byte; the decoder produces exactly `[("a", Byte 2), ("b", Byte 3)]`. -/
theorem c10_decode_witness :
    ∃ tags : List NamedTag, readTagsUntilEnd 9 dupNamesWire = .ok (tags, []) ∧
      dupNamesEntries = compoundFromNamedList tags ∧
      dictKeys dupNamesEntries = firstOccs (wireNames tags) ∧
      (dictKeys dupNamesEntries).Nodup ∧
      ∀ n : List Nat, dictLookup dupNamesEntries n = lastAssoc tags n :=
  c10_compound_decode_last_write_wins 9 dupNamesWire [] dupNamesEntries rfl
